import Mathlib

/-!
Shallow embedding of `text_evaluator/strategy.py` from the
text-concepts-evaluator repository.

Numbers are modelled as rationals (`ℚ`); Python exceptions are modelled with
`Except PyErr`.  Python `dict`s are modelled as association lists
(`List (String × _)`), which preserves the insertion/iteration order that the
strategies rely on; the input mappings are assumed to have unique keys, as a
Python `dict` guarantees.
-/

/-- The Python exceptions that the code under `strategy.py` can raise. -/
inductive PyErr where
  | keyError
  | zeroDivisionError
  | typeError
deriving DecidableEq, Repr

/-- `DocumentMetadata` (strategy.py:7-12): a statistics mapping from a
statistic name (e.g. "count") to a concept-URI → number mapping, plus the
full text (default `""`). -/
structure DocumentMetadata where
  statistics : List (String × List (String × ℚ))
  text : String := ""

/-- `Result` (strategy.py:15-19): the ordered concept list of a strategy. -/
structure Result where
  concepts : List String
deriving DecidableEq, Repr

/-- `CountStatisticsStrategy.evaluated_statistics_name` (strategy.py:30-33). -/
def evaluated_statistics_name : String := "count"

/-- `document_metadata.statistics[name]`: a Python dict lookup, raising
`KeyError` when the key is absent. -/
def getStatistic (dm : DocumentMetadata) (name : String) : Except PyErr (List (String × ℚ)) :=
  match dm.statistics.lookup name with
  | some v => .ok v
  | none => .error .keyError

/-- The count statistics sub-mapping, `document_metadata.statistics["count"]`
as read by every strategy in the file. -/
def getCountStatistics (dm : DocumentMetadata) : Except PyErr (List (String × ℚ)) :=
  getStatistic dm evaluated_statistics_name

/-- Configuration of `FractionEvaluationStrategy` (strategy.py:42-46):
`number_of_concepts` (default 10) and `min_fraction` (default `None`). -/
structure FractionConfig where
  number_of_concepts : Nat := 10
  min_fraction : Option ℚ := none

/-- `sum(mapping.values())`. -/
def sumValues (stats : List (String × ℚ)) : ℚ :=
  (stats.map Prod.snd).sum

/-- Python's stable `sorted(items, key=lambda item: item[1], reverse=True)`:
a stable sort placing larger values first, ties keeping input order.
Insertion sort with the relation `a.2 ≥ b.2` realises exactly that order. -/
def sortDescByValue (l : List (String × ℚ)) : List (String × ℚ) :=
  List.insertionSort (fun a b => a.2 ≥ b.2) l

/-- `FractionEvaluationStrategy._filter_concepts` (strategy.py:77-82): keep a
concept iff `min_fraction is None` or its fraction is `≥ min_fraction`. -/
def filterConcepts (cfg : FractionConfig) (stats : List (String × ℚ)) : List (String × ℚ) :=
  stats.filter fun p =>
    match cfg.min_fraction with
    | none => true
    | some f => decide (p.2 ≥ f)

/-- `FractionEvaluationStrategy._create_result` (strategy.py:65-75): filter,
sort descending by score, keep the concept names, truncate with the slice
`[: number_of_concepts + 1]`. -/
def createResult (cfg : FractionConfig) (stats : List (String × ℚ)) : Result :=
  ⟨((sortDescByValue (filterConcepts cfg stats)).map Prod.fst).take
      (cfg.number_of_concepts + 1)⟩

/-- `FractionEvaluationStrategy.parse` (strategy.py:61-63), parameterised by
the abstract `evaluate_metadata` step of the concrete subclass. -/
def fractionParse (evalMeta : DocumentMetadata → Except PyErr (List (String × ℚ)))
    (cfg : FractionConfig) (dm : DocumentMetadata) : Except PyErr Result :=
  match evalMeta dm with
  | .error e => .error e
  | .ok evaluated => .ok (createResult cfg evaluated)

/-- `ConceptFractionInAllConceptsStrategy.evaluate_metadata`
(strategy.py:112-122): each concept's count divided by the sum of all counts.
The division is performed once per item of a non-empty mapping, so a zero
total raises `ZeroDivisionError` exactly when the mapping is non-empty. -/
def evaluateMetadataAllConcepts (dm : DocumentMetadata) : Except PyErr (List (String × ℚ)) :=
  match getCountStatistics dm with
  | .error e => .error e
  | .ok stats =>
    if stats.isEmpty then .ok []
    else if sumValues stats = 0 then .error .zeroDivisionError
    else .ok (stats.map fun p => (p.1, p.2 / sumValues stats))

/-- `ConceptFractionInAllConceptsStrategy().parse`. -/
def conceptsParse (cfg : FractionConfig) (dm : DocumentMetadata) : Except PyErr Result :=
  fractionParse evaluateMetadataAllConcepts cfg dm

/-!
Tokenization pipeline of `ConceptFractionInAllWordsStrategy`
(strategy.py:85-106).

The source compiles two regular expressions over Python strings (where `.`
does not match a newline):
  * `re_extract_annotated_words = re.compile(r"<em.+>(.+?)</em>")`, used as
    `re_extract_annotated_words.sub("foo", text, re.DOTALL)`.  The third
    positional argument of `Pattern.sub` is the replacement *count*, so the
    flag value `re.DOTALL == 16` limits the substitution to the 16 leftmost
    matches.  `<em` is matched literally, `.+` is greedy (longest first, so a
    single match can stretch over several `<em …>…</em>` elements on one
    line) and `(.+?)` is lazy (shortest first).
  * `re_word_split = re.compile(r"<.*?>|\s")`, used with `re.split`: the text
    is cut at every leftmost occurrence of a markup tag (`<`, a lazy run of
    non-newline characters, `>`) or a single whitespace character.
The match procedures below implement exactly this backtracking order.
-/

/-- The literal `</em>` that closes the lazy group of the annotation regex. -/
def emClose : List Char := ['<', '/', 'e', 'm', '>']

/-- The lazy `(.+?)</em>` tail of the annotation regex: the least `k ≥ 1`
such that the first `k` characters contain no newline and `</em>` follows
them. -/
def findInner : List Char → Option Nat
  | [] => none
  | c :: rest =>
    if c = '\n' then none
    else if emClose.isPrefixOf rest then some 1
    else match findInner rest with
      | some k => some (k + 1)
      | none => none

/-- Length of a match of `<em.+>(.+?)</em>` starting at the head of `cs`
(`none` when no match starts here).  The greedy `.+` tries the largest
newline-free stretch before a `>` first, backtracking downwards; for each
such stretch the lazy group is resolved by `findInner`. -/
def matchEmLen (cs : List Char) : Option Nat :=
  if ['<', 'e', 'm'].isPrefixOf cs then
    (((List.range (cs.drop 3).length).reverse.filterMap fun m =>
      if 1 ≤ m ∧ (((cs.drop 3).take m).all fun c => c ≠ '\n')
          ∧ (cs.drop 3).get? m = some '>' then
        match findInner ((cs.drop 3).drop (m + 1)) with
        | some k => some (3 + m + 1 + k + 5)
        | none => none
      else none)).head?
  else none

/-- The replacement string `"foo"` of the annotation substitution. -/
def fooChars : List Char := ['f', 'o', 'o']

/-- `re_extract_annotated_words.sub("foo", text, 16)` over character lists:
scan left to right, replace each non-overlapping leftmost match by `foo`,
stop after `budget` replacements.  `fuel` bounds the recursion by the length
of the text; every step consumes at least one character. -/
def subEmAux : Nat → Nat → List Char → List Char
  | 0, _, cs => cs
  | _ + 1, 0, cs => cs
  | fuel + 1, budget + 1, cs =>
    match cs with
    | [] => []
    | c :: rest =>
      match matchEmLen (c :: rest) with
      | some len => fooChars ++ subEmAux fuel budget ((c :: rest).drop len)
      | none => c :: subEmAux fuel (budget + 1) rest

/-- Line 96 of strategy.py: collapse (at most 16) annotated spans to `foo`. -/
def subAnnotated (text : String) : String :=
  String.mk (subEmAux (text.toList.length + 1) 16 text.toList)

/-- The lazy `.*?>` tail of the tag alternative: the least `j ≥ 0` such that
the first `j` characters contain no newline and the next one is `>`. -/
def findGt : List Char → Option Nat
  | [] => none
  | c :: rest =>
    if c = '>' then some 0
    else if c = '\n' then none
    else match findGt rest with
      | some j => some (j + 1)
      | none => none

/-- Python's whitespace class `\s` restricted to ASCII (the texts consumed
here are covered by it): space, tab, newline, carriage return, vertical tab
and form feed. -/
def isPySpace (c : Char) : Bool :=
  c = ' ' || c = '\t' || c = '\n' || c = '\r' || c = '\x0b' || c = '\x0c'

/-- Length of a delimiter match of `<.*?>|\s` starting at the head of the
list: the tag alternative is tried first, then the whitespace alternative. -/
def matchDelimLen : List Char → Option Nat
  | [] => none
  | c :: rest =>
    if c = '<' then
      match findGt rest with
      | some j => some (j + 2)
      | none => if isPySpace c then some 1 else none
    else if isPySpace c then some 1 else none

/-- `re.split` on `<.*?>|\s`: the pieces of the text between the leftmost
delimiter matches (empty pieces included, as in Python).  `acc` holds the
current piece reversed; every step consumes at least one character, so the
fuel `length + 1` suffices. -/
def pySplitAux : Nat → List Char → List Char → List String
  | 0, acc, _ => [String.mk acc.reverse]
  | _ + 1, acc, [] => [String.mk acc.reverse]
  | fuel + 1, acc, c :: rest =>
    match matchDelimLen (c :: rest) with
    | some len => String.mk acc.reverse :: pySplitAux fuel [] ((c :: rest).drop len)
    | none => pySplitAux fuel (c :: acc) rest

/-- `re_word_split.split(text)`. -/
def pySplit (text : String) : List String :=
  pySplitAux (text.toList.length + 1) [] text.toList

/-- Line 98 of strategy.py: `{word for word in re_word_split.split(text) if word}`
— a *set* of the non-empty tokens.  Only its cardinality is used, so the set
is modelled as the deduplicated token list. -/
def wordSet (text : String) : List String :=
  ((pySplit (subAnnotated text)).filter fun w => decide (w ≠ "")).dedup

/-- Line 99 of strategy.py: `word_count = len(words)` — the number of
*distinct* non-empty tokens. -/
def wordCount (text : String) : Nat :=
  (wordSet text).length

/-- `ConceptFractionInAllWordsStrategy.evaluate_metadata` (strategy.py:92-106):
each concept's count divided by the distinct-token count of the processed
text.  The division happens once per item of a non-empty mapping, so a zero
token count raises `ZeroDivisionError` exactly when the mapping is
non-empty. -/
def evaluateMetadataAllWords (dm : DocumentMetadata) : Except PyErr (List (String × ℚ)) :=
  match getCountStatistics dm with
  | .error e => .error e
  | .ok stats =>
    if stats.isEmpty then .ok []
    else if wordCount dm.text = 0 then .error .zeroDivisionError
    else .ok (stats.map fun p => (p.1, p.2 / (wordCount dm.text : ℚ)))

/-- `ConceptFractionInAllWordsStrategy().parse`. -/
def wordsParse (cfg : FractionConfig) (dm : DocumentMetadata) : Except PyErr Result :=
  fractionParse evaluateMetadataAllWords cfg dm

/-- `ConceptFractionFilteredByFractionAverageStrategy.evaluate_metadata`
(strategy.py:145-151): a dict comprehension copying the count mapping. -/
def evaluateMetadataAverage (dm : DocumentMetadata) : Except PyErr (List (String × ℚ)) :=
  match getCountStatistics dm with
  | .error e => .error e
  | .ok stats => .ok (stats.map fun p => (p.1, p.2))

/-- `_calculate_concept_fraction_average` (strategy.py:153-166): `0.0` when
the mapping has no concepts, otherwise the sum of counts over their number. -/
def calcConceptFractionAverage (stats : List (String × ℚ)) : ℚ :=
  if stats.length = 0 then 0
  else sumValues stats / (stats.length : ℚ)

/-- `ConceptFractionFilteredByFractionAverageStrategy._filter_concepts`
(strategy.py:183-190): keep a concept iff its evaluated value is `≥` the
acceptance threshold. -/
def averageFilterConcepts (stats : List (String × ℚ)) (threshold : ℚ) : List (String × ℚ) :=
  stats.filter fun p => decide (p.2 ≥ threshold)

/-- `ConceptFractionFilteredByFractionAverageStrategy._create_result`
(strategy.py:168-181): sort descending by value, keep the names, no
truncation. -/
def averageCreateResult (stats : List (String × ℚ)) : Result :=
  ⟨(sortDescByValue stats).map Prod.fst⟩

/-- `ConceptFractionFilteredByFractionAverageStrategy.parse`
(strategy.py:129-143), parameterised by the `evaluate_metadata` of the
concrete subclass.  When the average is `0.0` the source executes
`return self._create_result()` — a call missing the required positional
argument `evaluated_concept_statistics`, which raises `TypeError` at call
time; the embedding records that as `.error .typeError`. -/
def averageParseWith (evalMeta : DocumentMetadata → Except PyErr (List (String × ℚ)))
    (dm : DocumentMetadata) : Except PyErr Result :=
  match evalMeta dm with
  | .error e => .error e
  | .ok evaluated =>
    match getCountStatistics dm with
    | .error e => .error e
    | .ok stats =>
      if calcConceptFractionAverage stats = 0 then .error .typeError
      else .ok (averageCreateResult
        (averageFilterConcepts evaluated (calcConceptFractionAverage stats)))

/-- `ConceptFractionFilteredByFractionAverageStrategy().parse`. -/
def averageParse (dm : DocumentMetadata) : Except PyErr Result :=
  averageParseWith evaluateMetadataAverage dm

/-- Python's substring test `needle in haystack` on the character lists. -/
def listContainsAux : List Char → List Char → Bool
  | needle, [] => needle.isEmpty
  | needle, c :: rest => needle.isPrefixOf (c :: rest) || listContainsAux needle rest

/-- Python's `needle in haystack` for strings. -/
def pyIn (needle haystack : String) : Bool :=
  listContainsAux needle.toList haystack.toList

/-- `ConceptFilteredByFractionAverageMentionsBoostedStrategy.MENTIONED_CONCEPT_BOOST`
(strategy.py:199): the source holds the float `2.0`; the exponent is modelled
as the natural number 2. -/
def MENTIONED_CONCEPT_BOOST : Nat := 2

/-- `ConceptFilteredByFractionAverageMentionsBoostedStrategy.evaluate_metadata`
(strategy.py:201-213): a concept whose URI occurs verbatim in the text gets
`pow(count, MENTIONED_CONCEPT_BOOST)`, the others keep their raw count. -/
def evaluateMetadataBoosted (dm : DocumentMetadata) : Except PyErr (List (String × ℚ)) :=
  match getCountStatistics dm with
  | .error e => .error e
  | .ok stats =>
    .ok (stats.map fun p =>
      (p.1, if pyIn p.1 dm.text then p.2 ^ MENTIONED_CONCEPT_BOOST else p.2))

/-- `ConceptFilteredByFractionAverageMentionsBoostedStrategy().parse`:
inherits `parse` and only overrides `evaluate_metadata`. -/
def boostedParse (dm : DocumentMetadata) : Except PyErr Result :=
  averageParseWith evaluateMetadataBoosted dm

/-- The denominator as the specification words it: the number of non-empty
tokens *with repetitions* after collapsing annotated spans.  Stated from the
spec's words ("count of whitespace/tag-delimited tokens … empty tokens
dropped") for comparison with the source's `wordCount`, which measures the
set `{word for word in … if word}`. -/
def claimedTokenCount (text : String) : Nat :=
  ((pySplit (subAnnotated text)).filter fun w => decide (w ≠ "")).length

/-- `Except.ok`-ness of a strategy outcome. -/
def exceptIsOk : Except PyErr Result → Bool
  | .ok _ => true
  | .error _ => false

/-!
State-passing embedding for the frame property: `parse` is re-rendered with
the mutable state (the strategy instance's configuration fields and the
`DocumentMetadata` argument) threaded explicitly through the call.  No
statement in strategy.py assigns to `self.…` or to a field of
`document_metadata`, so each step passes the state through unchanged.
-/

/-- `FractionEvaluationStrategy.parse` (strategy.py:61-63) threading the
instance configuration and the document as explicit state. -/
def fractionParseSt (evalMeta : DocumentMetadata → Except PyErr (List (String × ℚ)))
    (cfg : FractionConfig) (dm : DocumentMetadata) :
    (FractionConfig × DocumentMetadata) × Except PyErr Result :=
  match evalMeta dm with
  | .error e => ((cfg, dm), .error e)
  | .ok evaluated => ((cfg, dm), .ok (createResult cfg evaluated))

/-- `ConceptFractionFilteredByFractionAverageStrategy.parse`
(strategy.py:129-143) threading the document as explicit state (this family
has no constructor-set configuration fields). -/
def averageParseWithSt (evalMeta : DocumentMetadata → Except PyErr (List (String × ℚ)))
    (dm : DocumentMetadata) : DocumentMetadata × Except PyErr Result :=
  match evalMeta dm with
  | .error e => (dm, .error e)
  | .ok evaluated =>
    match getCountStatistics dm with
    | .error e => (dm, .error e)
    | .ok stats =>
      if calcConceptFractionAverage stats = 0 then (dm, .error .typeError)
      else (dm, .ok (averageCreateResult
        (averageFilterConcepts evaluated (calcConceptFractionAverage stats))))

/-!  Concrete fixtures used by witnesses and counterexamples.  -/

/-- A document whose "count" statistics mapping is empty. -/
def docEmptyCount : DocumentMetadata := ⟨[("count", [])], ""⟩

/-- A document whose text repeats the token `a`: three tokens, two distinct. -/
def docRepeatedWord : DocumentMetadata := ⟨[("count", [("u", 1)])], "a a b"⟩

/-- A document with two distinct tokens of text. -/
def docTwoWords : DocumentMetadata := ⟨[("count", [("x", 3)])], "b c"⟩

/-- The boost scenario: counts 2,1,3,4,5 in this insertion order, and only
the count-2 concept's URI occurs in the text. -/
def docBoostScenario : DocumentMetadata :=
  ⟨[("count", [("u2", 2), ("u1", 1), ("u3", 3), ("u4", 4), ("u5", 5)])], "word u2 word"⟩

/-- The count-statistics mapping of `docBoostScenario`. -/
def statsBoostScenario : List (String × ℚ) :=
  [("u2", 2), ("u1", 1), ("u3", 3), ("u4", 4), ("u5", 5)]

/-- Five concepts with counts 1..5 and no text. -/
def docFive : DocumentMetadata :=
  ⟨[("count", [("a", 1), ("b", 2), ("c", 3), ("d", 4), ("e", 5)])], ""⟩

/-- Two concepts that share the count 0. -/
def docUniformZero : DocumentMetadata := ⟨[("count", [("a", 0), ("b", 0)])], ""⟩

/-- Three concepts that share the count 1. -/
def docUniformOne : DocumentMetadata :=
  ⟨[("count", [("a", 1), ("b", 1), ("c", 1)])], ""⟩

/-- A single concept with count 1 and an empty text (zero tokens). -/
def docOneConcept : DocumentMetadata := ⟨[("count", [("a", 1)])], ""⟩

/-- Two concepts, a non-empty mapping, and an empty text. -/
def docTwoConcepts : DocumentMetadata := ⟨[("count", [("a", 2), ("b", 1)])], ""⟩

/-!  Helper lemmas shared by several claims.  -/

/-- Mapping a value-transforming function over a concept mapping keeps the
concept names. -/
theorem map_fst_map_pair (g : String × ℚ → ℚ) (l : List (String × ℚ)) :
    (l.map fun p => (p.1, g p)).map Prod.fst = l.map Prod.fst := by
  simp [List.map_map, Function.comp]

/-- The identity dict comprehension of `evaluate_metadata` (strategy.py:145-151)
returns the mapping unchanged. -/
theorem map_pair_id (l : List (String × ℚ)) : (l.map fun p => (p.1, p.2)) = l := by
  simp

/-- The stable descending sort permutes its input. -/
theorem sortDescByValue_perm (l : List (String × ℚ)) : List.Perm (sortDescByValue l) l :=
  List.perm_insertionSort _ l

/-- Every concept name in a fraction-strategy result comes from the evaluated
mapping. -/
theorem mem_of_mem_createResult {uri : String} {cfg : FractionConfig}
    {s : List (String × ℚ)} (h : uri ∈ (createResult cfg s).concepts) :
    uri ∈ s.map Prod.fst := by
  unfold createResult at h
  have h1 := List.take_subset _ _ h
  obtain ⟨p, hp, rfl⟩ := List.mem_map.mp h1
  exact List.mem_map_of_mem _
    (List.mem_of_mem_filter ((sortDescByValue_perm _).subset hp))

/-- Every concept name in an average-strategy result comes from the filtered
mapping it sorts. -/
theorem mem_of_mem_averageCreateResult {uri : String} {s : List (String × ℚ)}
    (h : uri ∈ (averageCreateResult s).concepts) : uri ∈ s.map Prod.fst := by
  unfold averageCreateResult at h
  obtain ⟨p, hp, rfl⟩ := List.mem_map.mp h
  exact List.mem_map_of_mem _ ((sortDescByValue_perm _).subset hp)

/-- Summing a mapping whose values all equal `c`. -/
theorem sumValues_of_const (c : ℚ) : ∀ l : List (String × ℚ),
    (∀ p ∈ l, p.2 = c) → sumValues l = c * l.length
  | [], _ => by simp [sumValues]
  | p :: l, h => by
    have hrest := sumValues_of_const c l fun q hq => h q (List.mem_cons_of_mem p hq)
    have hp := h p (List.mem_cons_self p l)
    simp only [sumValues, List.map_cons, List.sum_cons, List.length_cons] at *
    rw [hp, hrest]
    push_cast
    ring

/-- A stable descending sort of a constant-valued mapping is the identity. -/
theorem sortDescByValue_of_const (c : ℚ) : ∀ l : List (String × ℚ),
    (∀ p ∈ l, p.2 = c) → sortDescByValue l = l
  | [], _ => rfl
  | p :: l, h => by
    have hrest := sortDescByValue_of_const c l fun q hq => h q (List.mem_cons_of_mem p hq)
    simp only [sortDescByValue, List.insertionSort] at hrest ⊢
    rw [hrest]
    cases l with
    | nil => rfl
    | cons q t =>
      exact List.orderedInsert_of_le _ t
        (le_of_eq (by rw [h q (by simp), h p (by simp)]))

/-!  Claim theorems.  -/

/-- C1: the spec (and the repository's own test) expects `parse` on a
document with an empty "count" mapping to return an empty result without
raising; the source instead reaches `return self._create_result()` — a call
missing the required positional argument — which raises `TypeError`.  The
theorem evaluates the embedded code at the failing input. -/
theorem emptyCountMapping_parse_raises_typeError :
    averageParse docEmptyCount = .error .typeError := rfl

/-- C2 counterexample: on the text `"a a b"` (three tokens, two distinct) and
one concept of count 1, the code scores the concept `1/2`, while the claimed
denominator — the token count with repetitions — is 3, so the claimed score
would be `1/3 ≠ 1/2`. -/
theorem words_denominator_counterexample :
    evaluateMetadataAllWords docRepeatedWord = .ok [("u", (1 : ℚ)/2)]
    ∧ claimedTokenCount "a a b" = 3
    ∧ ((1 : ℚ)/2 ≠ (1 : ℚ)/3) :=
  ⟨rfl, rfl, by norm_num⟩

/-- C2 amended: with a non-zero denominator, `evaluate_metadata` assigns each
concept the score count ÷ N where N is the number of *distinct* non-empty
tokens of the text after the annotation substitution (which, due to
`re.DOTALL` being passed as the replacement count, collapses at most the 16
leftmost — possibly multi-element — greedy matches). -/
theorem words_score_eq_count_div_distinct_tokens (dm : DocumentMetadata)
    (stats : List (String × ℚ)) (h : getCountStatistics dm = .ok stats)
    (hN : wordCount dm.text ≠ 0) :
    evaluateMetadataAllWords dm
      = .ok (stats.map fun p => (p.1, p.2 / (wordCount dm.text : ℚ))) := by
  unfold evaluateMetadataAllWords
  rw [h]
  by_cases hE : stats.isEmpty
  · rw [List.isEmpty_iff.mp hE]
    simp
  · simp [hE, hN]

/-- C2 witness: the amended statement applied to a concrete two-token text. -/
theorem words_score_witness :
    wordCount docTwoWords.text ≠ 0
    ∧ evaluateMetadataAllWords docTwoWords
        = .ok ([("x", (3 : ℚ))].map fun p => (p.1, p.2 / (wordCount docTwoWords.text : ℚ))) :=
  ⟨by decide, words_score_eq_count_div_distinct_tokens docTwoWords [("x", 3)] rfl (by decide)⟩

/-- C5: with `min_fraction` set, `_filter_concepts` keeps a concept iff its
score is `≥ min_fraction` (the threshold is inclusive); with `min_fraction`
as `None` the filter drops nothing. -/
theorem min_fraction_filter_inclusive (n : Nat) (stats : List (String × ℚ))
    (f : ℚ) (p : String × ℚ) :
    (p ∈ filterConcepts ⟨n, some f⟩ stats ↔ p ∈ stats ∧ p.2 ≥ f)
    ∧ filterConcepts ⟨n, none⟩ stats = stats := by
  constructor
  · simp [filterConcepts, List.mem_filter]
  · simp [filterConcepts]

/-- C4: any `Result` produced by `FractionEvaluationStrategy.parse` holds at
most `number_of_concepts + 1` concepts: the truncation slice keeps one entry
more than the configured maximum. -/
theorem fraction_result_length_le
    (f : DocumentMetadata → Except PyErr (List (String × ℚ)))
    (cfg : FractionConfig) (dm : DocumentMetadata) (r : Result)
    (h : fractionParse f cfg dm = .ok r) :
    r.concepts.length ≤ cfg.number_of_concepts + 1 := by
  unfold fractionParse at h
  cases hf : f dm with
  | error e => rw [hf] at h; exact absurd h (by simp)
  | ok s =>
    rw [hf] at h
    injection h with hr
    rw [← hr]
    unfold createResult
    exact List.length_take_le _ _

/-- C4 witness: the concrete five-concept document with the default
configuration yields five concepts, within the `10 + 1` bound. -/
theorem fraction_result_length_witness :
    (Result.mk ["e", "d", "c", "b", "a"]).concepts.length ≤ 10 + 1 :=
  fraction_result_length_le evaluateMetadataAllConcepts ⟨10, none⟩ docFive
    ⟨["e", "d", "c", "b", "a"]⟩
    (by norm_num [fractionParse, evaluateMetadataAllConcepts, getCountStatistics,
      getStatistic, evaluated_statistics_name, sumValues, createResult, filterConcepts,
      sortDescByValue, List.insertionSort, List.orderedInsert, List.lookup, docFive])

/-- C3: in the boosted strategy, the acceptance threshold is the sum of the
*raw* annotation counts over their number, while the filter compares each
concept's *boosted* score (count squared when its URI occurs in the text,
the raw count otherwise) against that threshold. -/
theorem boosted_filter_uses_raw_count_threshold (dm : DocumentMetadata)
    (stats : List (String × ℚ)) (h : getCountStatistics dm = .ok stats)
    (hne : stats ≠ []) (havg : sumValues stats / (stats.length : ℚ) ≠ 0) :
    boostedParse dm = .ok (averageCreateResult (averageFilterConcepts
      (stats.map fun p =>
        (p.1, if pyIn p.1 dm.text then p.2 ^ MENTIONED_CONCEPT_BOOST else p.2))
      (sumValues stats / (stats.length : ℚ)))) := by
  have hlen : stats.length ≠ 0 := fun hl => hne (List.length_eq_zero.mp hl)
  have hcalc : calcConceptFractionAverage stats = sumValues stats / (stats.length : ℚ) := by
    unfold calcConceptFractionAverage
    simp [hlen]
  unfold boostedParse averageParseWith evaluateMetadataBoosted
  rw [h]
  dsimp only
  rw [hcalc]
  simp [havg]

/-- C3 witness: counts 2,1,3,4,5 where only the count-2 concept is mentioned
in the text; threshold 15/5 = 3, the mentioned concept is boosted to 4, and
the returned order is count-5, boosted count-2, count-4, count-3. -/
theorem boost_scenario_witness :
    boostedParse docBoostScenario = .ok ⟨["u5", "u2", "u4", "u3"]⟩ := by
  have happ := boosted_filter_uses_raw_count_threshold docBoostScenario statsBoostScenario
    rfl (by simp [statsBoostScenario]) (by norm_num [statsBoostScenario, sumValues])
  rw [happ]
  have hmap : (statsBoostScenario.map fun p =>
      (p.1, if pyIn p.1 docBoostScenario.text then p.2 ^ MENTIONED_CONCEPT_BOOST else p.2))
      = [("u2", (2 : ℚ) ^ 2), ("u1", 1), ("u3", 3), ("u4", 4), ("u5", 5)] := rfl
  have hsum : sumValues statsBoostScenario / ((statsBoostScenario.length : ℕ) : ℚ) = 3 := by
    norm_num [sumValues, statsBoostScenario]
  rw [hmap, hsum]
  norm_num [averageFilterConcepts, averageCreateResult, sortDescByValue,
    List.insertionSort, List.orderedInsert]

/-- C6 counterexample: two concepts that share the count 0 are uniform, yet
`parse` raises `TypeError` (through the zero-average branch) instead of
returning both concepts in input order. -/
theorem uniform_zero_counts_counterexample :
    averageParse docUniformZero = .error .typeError
    ∧ (Except.error PyErr.typeError ≠ (Except.ok ⟨["a", "b"]⟩ : Except PyErr Result)) := by
  constructor
  · norm_num [averageParse, averageParseWith, evaluateMetadataAverage, getCountStatistics,
      getStatistic, evaluated_statistics_name, calcConceptFractionAverage, sumValues,
      List.lookup, docUniformZero]
  · intro hcontra
    exact Except.noConfusion hcontra

/-- C6 amended: when every concept shares the same *non-zero* count `c` in a
non-empty mapping, the acceptance threshold equals `c`, every concept passes
the `≥` filter, and the result preserves the mapping's iteration order. -/
theorem uniform_nonzero_counts_all_pass_in_order (dm : DocumentMetadata)
    (stats : List (String × ℚ)) (c : ℚ) (h : getCountStatistics dm = .ok stats)
    (hne : stats ≠ []) (hc : c ≠ 0) (hall : ∀ p ∈ stats, p.2 = c) :
    calcConceptFractionAverage stats = c
    ∧ averageParse dm = .ok ⟨stats.map Prod.fst⟩ := by
  have hlen : stats.length ≠ 0 := fun hl => hne (List.length_eq_zero.mp hl)
  have hlenQ : ((stats.length : ℕ) : ℚ) ≠ 0 := Nat.cast_ne_zero.mpr hlen
  have hsum := sumValues_of_const c stats hall
  have hcalc : calcConceptFractionAverage stats = c := by
    unfold calcConceptFractionAverage
    rw [if_neg hlen, hsum, mul_div_assoc, div_self hlenQ, mul_one]
  refine ⟨hcalc, ?_⟩
  have hfilter : averageFilterConcepts stats c = stats := by
    unfold averageFilterConcepts
    apply List.filter_eq_self.mpr
    intro p hp
    simp [hall p hp]
  unfold averageParse averageParseWith evaluateMetadataAverage
  rw [h]
  dsimp only
  rw [map_pair_id, hcalc, if_neg hc, hfilter]
  unfold averageCreateResult
  rw [sortDescByValue_of_const c stats hall]

/-- C6 witness: three concepts with the shared count 1 are all returned in
input order, with acceptance threshold 1. -/
theorem uniform_counts_witness :
    calcConceptFractionAverage [("a", 1), ("b", 1), ("c", 1)] = 1
    ∧ averageParse docUniformOne
        = .ok ⟨([("a", (1 : ℚ)), ("b", 1), ("c", 1)].map Prod.fst)⟩ :=
  uniform_nonzero_counts_all_pass_in_order docUniformOne [("a", 1), ("b", 1), ("c", 1)] 1
    rfl (by simp) one_ne_zero (by intro p hp; fin_cases hp <;> norm_num)

/-- If the pluggable `evaluate_metadata` returns the mapping `s`, every
concept of a fraction-strategy `parse` result is a key of `s`. -/
theorem fractionParse_ok_subset
    (f : DocumentMetadata → Except PyErr (List (String × ℚ)))
    (cfg : FractionConfig) (dm : DocumentMetadata) (r : Result) (uri : String)
    (s : List (String × ℚ)) (hs : f dm = .ok s)
    (hp : fractionParse f cfg dm = .ok r) (hm : uri ∈ r.concepts) :
    uri ∈ s.map Prod.fst := by
  unfold fractionParse at hp
  rw [hs] at hp
  injection hp with hr
  rw [← hr] at hm
  exact mem_of_mem_createResult hm

/-- If the pluggable `evaluate_metadata` returns the mapping `s`, every
concept of an average-strategy `parse` result is a key of `s`. -/
theorem averageParseWith_ok_subset
    (g : DocumentMetadata → Except PyErr (List (String × ℚ)))
    (dm : DocumentMetadata) (r : Result) (uri : String)
    (s stats : List (String × ℚ)) (hs : g dm = .ok s)
    (hq : getCountStatistics dm = .ok stats)
    (hp : averageParseWith g dm = .ok r) (hm : uri ∈ r.concepts) :
    uri ∈ s.map Prod.fst := by
  unfold averageParseWith at hp
  rw [hs, hq] at hp
  dsimp only at hp
  by_cases hz : calcConceptFractionAverage stats = 0
  · rw [if_pos hz] at hp
    exact absurd hp (by simp)
  · rw [if_neg hz] at hp
    injection hp with hr
    rw [← hr] at hm
    have h2 := mem_of_mem_averageCreateResult hm
    obtain ⟨p, hp2, rfl⟩ := List.mem_map.mp h2
    unfold averageFilterConcepts at hp2
    exact List.mem_map_of_mem _ (List.mem_of_mem_filter hp2)

/-- C7: for each of the four strategies, every concept URI of a successful
`parse` result is a key of the input "count" mapping — no strategy
introduces a URI absent from the input. -/
theorem results_subset_of_input_concepts (cfg : FractionConfig)
    (dm : DocumentMetadata) (stats : List (String × ℚ)) (uri : String)
    (r1 r2 r3 r4 : Result) (h : getCountStatistics dm = .ok stats) :
    (wordsParse cfg dm = .ok r1 → uri ∈ r1.concepts → uri ∈ stats.map Prod.fst)
    ∧ (conceptsParse cfg dm = .ok r2 → uri ∈ r2.concepts → uri ∈ stats.map Prod.fst)
    ∧ (averageParse dm = .ok r3 → uri ∈ r3.concepts → uri ∈ stats.map Prod.fst)
    ∧ (boostedParse dm = .ok r4 → uri ∈ r4.concepts → uri ∈ stats.map Prod.fst) := by
  refine ⟨?_, ?_, ?_, ?_⟩
  · intro hp hm
    unfold wordsParse at hp
    by_cases hE : stats.isEmpty
    · have hs : evaluateMetadataAllWords dm = .ok [] := by
        unfold evaluateMetadataAllWords
        rw [h]
        simp [hE]
      have h0 := fractionParse_ok_subset _ _ _ _ _ _ hs hp hm
      simp at h0
    · by_cases hW : wordCount dm.text = 0
      · have hs : evaluateMetadataAllWords dm = .error .zeroDivisionError := by
          unfold evaluateMetadataAllWords
          rw [h]
          simp [hE, hW]
        unfold fractionParse at hp
        rw [hs] at hp
        exact absurd hp (by simp)
      · have hs : evaluateMetadataAllWords dm
            = .ok (stats.map fun p => (p.1, p.2 / (wordCount dm.text : ℚ))) := by
          unfold evaluateMetadataAllWords
          rw [h]
          simp [hE, hW]
        have h0 := fractionParse_ok_subset _ _ _ _ _ _ hs hp hm
        rwa [map_fst_map_pair] at h0
  · intro hp hm
    unfold conceptsParse at hp
    by_cases hE : stats.isEmpty
    · have hs : evaluateMetadataAllConcepts dm = .ok [] := by
        unfold evaluateMetadataAllConcepts
        rw [h]
        simp [hE]
      have h0 := fractionParse_ok_subset _ _ _ _ _ _ hs hp hm
      simp at h0
    · by_cases hS : sumValues stats = 0
      · have hs : evaluateMetadataAllConcepts dm = .error .zeroDivisionError := by
          unfold evaluateMetadataAllConcepts
          rw [h]
          simp [hE, hS]
        unfold fractionParse at hp
        rw [hs] at hp
        exact absurd hp (by simp)
      · have hs : evaluateMetadataAllConcepts dm
            = .ok (stats.map fun p => (p.1, p.2 / sumValues stats)) := by
          unfold evaluateMetadataAllConcepts
          rw [h]
          simp [hE, hS]
        have h0 := fractionParse_ok_subset _ _ _ _ _ _ hs hp hm
        rwa [map_fst_map_pair] at h0
  · intro hp hm
    unfold averageParse at hp
    have hs : evaluateMetadataAverage dm = .ok (stats.map fun p => (p.1, p.2)) := by
      unfold evaluateMetadataAverage
      rw [h]
    have h0 := averageParseWith_ok_subset _ _ _ _ _ _ hs h hp hm
    rw [map_pair_id] at h0
    exact h0
  · intro hp hm
    unfold boostedParse at hp
    have hs : evaluateMetadataBoosted dm = .ok (stats.map fun p =>
        (p.1, if pyIn p.1 dm.text then p.2 ^ MENTIONED_CONCEPT_BOOST else p.2)) := by
      unfold evaluateMetadataBoosted
      rw [h]
    have h0 := averageParseWith_ok_subset _ _ _ _ _ _ hs h hp hm
    rwa [map_fst_map_pair] at h0

/-- C7 witness: the subset property applied to the boost-scenario document
for each of the four strategies, at their actual outputs. -/
theorem results_subset_witness :
    (wordsParse ⟨10, none⟩ docBoostScenario = .ok ⟨["u5", "u4", "u3", "u2", "u1"]⟩
      → "u5" ∈ (Result.mk ["u5", "u4", "u3", "u2", "u1"]).concepts
      → "u5" ∈ statsBoostScenario.map Prod.fst)
    ∧ (conceptsParse ⟨10, none⟩ docBoostScenario = .ok ⟨["u5", "u4", "u3", "u2", "u1"]⟩
      → "u5" ∈ (Result.mk ["u5", "u4", "u3", "u2", "u1"]).concepts
      → "u5" ∈ statsBoostScenario.map Prod.fst)
    ∧ (averageParse docBoostScenario = .ok ⟨["u5", "u4", "u3"]⟩
      → "u5" ∈ (Result.mk ["u5", "u4", "u3"]).concepts
      → "u5" ∈ statsBoostScenario.map Prod.fst)
    ∧ (boostedParse docBoostScenario = .ok ⟨["u5", "u2", "u4", "u3"]⟩
      → "u5" ∈ (Result.mk ["u5", "u2", "u4", "u3"]).concepts
      → "u5" ∈ statsBoostScenario.map Prod.fst) :=
  results_subset_of_input_concepts ⟨10, none⟩ docBoostScenario statsBoostScenario "u5"
    ⟨["u5", "u4", "u3", "u2", "u1"]⟩ ⟨["u5", "u4", "u3", "u2", "u1"]⟩
    ⟨["u5", "u4", "u3"]⟩ ⟨["u5", "u2", "u4", "u3"]⟩ rfl

/-- C8: given a non-empty "count" mapping, the fraction-based strategies
raise the uncaught division-by-zero error exactly when their denominator is
zero — the distinct-token count for the all-words strategy, the total
annotation count for the all-concepts strategy — and succeed otherwise. -/
theorem fraction_divzero_iff (cfg : FractionConfig) (dm : DocumentMetadata)
    (stats : List (String × ℚ)) (h : getCountStatistics dm = .ok stats)
    (hne : stats ≠ []) :
    (wordsParse cfg dm = .error .zeroDivisionError ↔ wordCount dm.text = 0)
    ∧ (wordCount dm.text ≠ 0 → exceptIsOk (wordsParse cfg dm) = true)
    ∧ (conceptsParse cfg dm = .error .zeroDivisionError ↔ sumValues stats = 0)
    ∧ (sumValues stats ≠ 0 → exceptIsOk (conceptsParse cfg dm) = true) := by
  have hE : ¬ (stats.isEmpty = true) := by simp [hne]
  unfold wordsParse conceptsParse fractionParse evaluateMetadataAllWords
    evaluateMetadataAllConcepts
  rw [h]
  dsimp only
  refine ⟨?_, ?_, ?_, ?_⟩
  · by_cases hW : wordCount dm.text = 0
    · simp [hE, hW]
    · simp [hE, hW]
  · intro hW
    simp [hE, hW, exceptIsOk]
  · by_cases hS : sumValues stats = 0
    · simp [hE, hS]
    · simp [hE, hS]
  · intro hS
    simp [hE, hS, exceptIsOk]

/-- C8 witness: a single concept with count 1 and an empty text — the
all-words strategy divides by zero tokens and fails, while the all-concepts
strategy has total 1 and succeeds. -/
theorem fraction_divzero_witness :
    (wordsParse ⟨10, none⟩ docOneConcept = .error .zeroDivisionError
      ↔ wordCount docOneConcept.text = 0)
    ∧ (wordCount docOneConcept.text ≠ 0
      → exceptIsOk (wordsParse ⟨10, none⟩ docOneConcept) = true)
    ∧ (conceptsParse ⟨10, none⟩ docOneConcept = .error .zeroDivisionError
      ↔ sumValues [("a", 1)] = 0)
    ∧ (sumValues [("a", 1)] ≠ 0
      → exceptIsOk (conceptsParse ⟨10, none⟩ docOneConcept) = true) :=
  fraction_divzero_iff ⟨10, none⟩ docOneConcept [("a", 1)] rfl (by simp)

/-- C9: `parse` leaves the strategy configuration and the document metadata
unchanged, and its outcome is the pure function of these two values: the
state-passing rendering of each `parse` returns the input state untouched. -/
theorem parse_leaves_state_unchanged
    (f g : DocumentMetadata → Except PyErr (List (String × ℚ)))
    (cfg : FractionConfig) (dm : DocumentMetadata) :
    (fractionParseSt f cfg dm).1 = (cfg, dm)
    ∧ (fractionParseSt f cfg dm).2 = fractionParse f cfg dm
    ∧ (averageParseWithSt g dm).1 = dm
    ∧ (averageParseWithSt g dm).2 = averageParseWith g dm := by
  unfold fractionParseSt fractionParse averageParseWithSt averageParseWith
  refine ⟨?_, ?_, ?_, ?_⟩
  · cases f dm <;> rfl
  · cases f dm <;> rfl
  · cases g dm with
    | error e => rfl
    | ok evaluated =>
      cases getCountStatistics dm with
      | error e => rfl
      | ok stats =>
        dsimp only
        split <;> rfl
  · cases g dm with
    | error e => rfl
    | ok evaluated =>
      cases getCountStatistics dm with
      | error e => rfl
      | ok stats =>
        dsimp only
        split <;> rfl

/-- A non-empty string has a non-empty character list. -/
theorem toList_ne_nil_of_ne_empty {s : String} (hs : s ≠ "") : s.toList ≠ [] := by
  intro hnil
  apply hs
  cases s with
  | mk data =>
    simp only [String.toList] at hnil
    rw [hnil]

/-- C10: with an empty text and non-empty concept URIs, the boosted strategy
never applies a boost (`uri in ""` is false for every non-empty `uri`), so
its `parse` coincides with the plain average strategy's `parse`. -/
theorem boosted_eq_average_on_empty_text (dm : DocumentMetadata)
    (stats : List (String × ℚ)) (h : getCountStatistics dm = .ok stats)
    (htext : dm.text = "") (huris : ∀ p ∈ stats, p.1 ≠ "") :
    boostedParse dm = averageParse dm := by
  have heval : evaluateMetadataBoosted dm = evaluateMetadataAverage dm := by
    unfold evaluateMetadataBoosted evaluateMetadataAverage
    rw [h]
    dsimp only
    congr 1
    apply List.map_congr_left
    intro p hp
    have hfalse : pyIn p.1 dm.text = false := by
      rw [htext]
      show listContainsAux p.1.toList "".toList = false
      rw [String.toList_empty]
      show p.1.toList.isEmpty = false
      simpa using toList_ne_nil_of_ne_empty (huris p hp)
    rw [hfalse]
    simp
  unfold boostedParse averageParse averageParseWith
  rw [heval]

/-- C10 witness: on a two-concept document with empty text the two average
strategies return the same result. -/
theorem boosted_eq_average_witness :
    boostedParse docTwoConcepts = averageParse docTwoConcepts :=
  boosted_eq_average_on_empty_text docTwoConcepts [("a", 2), ("b", 1)] rfl rfl
    (by decide)
